import Mathlib

/-! Verification of the frb_speeches ingestion pipeline.

    Shallow embedding of the repository sources:
    models.py (Feed and its URL construction, FederalReserve_RSS.fetch_fed_speech,
    FederalReserve_RSS.append_speech_to_json), clients.py (XAIClient.get_response)
    and main.py (the orchestrator loop).

    External collaborators are modelled at their observable boundary: the HTML
    parser is modelled by a Page record holding the stripped text that each
    structural query of fetch_fed_speech returns, the network by an Except value
    carrying either a transport error or the fetched page, and the summarization
    endpoint by an Except value carrying either an API failure or the returned
    message content. -/

/-! Percent encoding, modelling urllib.parse.urlencode with its default
    quote_via=quote_plus on str keys and values (UTF-8 byte percent encoding,
    space encoded as the plus sign, ASCII alphanumerics and underscore, dot,
    hyphen, tilde kept literally). -/

def hexDigitUpper (n : Nat) : Char :=
  if n < 10 then Char.ofNat (48 + n) else Char.ofNat (55 + n)

def utf8Bytes (c : Char) : List Nat :=
  let n := c.toNat
  if n < 0x80 then [n]
  else if n < 0x800 then [0xC0 + n / 64, 0x80 + n % 64]
  else if n < 0x10000 then [0xE0 + n / 4096, 0x80 + n / 64 % 64, 0x80 + n % 64]
  else [0xF0 + n / 262144, 0x80 + n / 4096 % 64, 0x80 + n / 64 % 64, 0x80 + n % 64]

def alwaysSafeChar (c : Char) : Bool :=
  c.isAlpha || c.isDigit || c == '_' || c == '.' || c == '-' || c == '~'

def percentByte (b : Nat) : List Char :=
  ['%', hexDigitUpper (b / 16), hexDigitUpper (b % 16)]

def quotePlusChar (c : Char) : List Char :=
  if c = ' ' then ['+']
  else if alwaysSafeChar c then [c]
  else ((utf8Bytes c).map percentByte).flatten

def quotePlus (s : String) : String :=
  String.mk ((s.data.map quotePlusChar).flatten)

def encodePair (p : String × String) : String :=
  quotePlus p.1 ++ "=" ++ quotePlus p.2

/-- Join query components with ampersands, as the str.join call inside
    urllib.parse.urlencode does. -/
def joinAmp : List String → String
  | [] => ""
  | [x] => x
  | x :: xs => x ++ "&" ++ joinAmp xs

def urlencode (params : List (String × String)) : String :=
  joinAmp (params.map encodePair)

/-! Feed, from models.py. The dataclass builds self.url in post-init from the
    optional site, content_type and max fields; defaults are not modelled as
    Lean default values, theorems quantify over all field values. -/

structure Feed where
  name : String
  base_url : String
  description : String
  content_type : Option String
  site : Option String
  max : Option Int
deriving DecidableEq

/-- Parameter dictionary built by the three conditional inserts of
    Feed post-init, in insertion order Site, ContentType, Max. -/
def Feed.params (f : Feed) : List (String × String) :=
  (match f.site with | some s => [("Site", s)] | none => []) ++
  (match f.content_type with | some ct => [("ContentType", ct)] | none => []) ++
  (match f.max with | some m => [("Max", toString m)] | none => [])

/-- The resolved URL computed by the post-init of Feed. -/
def Feed.url (f : Feed) : String :=
  let query_string := urlencode f.params
  if query_string ≠ "" then f.base_url ++ "?" ++ query_string else f.base_url

/-! Date parsing, modelling datetime.strptime(date_raw, "%B %d, %Y") from
    fetch_fed_speech, followed by .isoformat().  The strptime regex matches
    a full month name case-insensitively, one or more whitespace characters
    for each whitespace run of the format, a day of 1 to 31 written with one
    or two digits (a two-digit form is preferred, a leading space form is
    accepted), a literal comma, whitespace, and exactly four year digits;
    input remaining after the match raises, as does an out-of-range
    calendar date in the datetime constructor. -/

def monthNames : List (List Char × Nat) :=
  [("january".data, 1), ("february".data, 2), ("march".data, 3),
   ("april".data, 4), ("may".data, 5), ("june".data, 6), ("july".data, 7),
   ("august".data, 8), ("september".data, 9), ("october".data, 10),
   ("november".data, 11), ("december".data, 12)]

def matchKeyword : List Char → List Char → Option (List Char)
  | [], cs => some cs
  | _ :: _, [] => none
  | k :: ks, c :: cs => if c.toLower = k then matchKeyword ks cs else none

def matchMonth (cs : List Char) : Option (Nat × List Char) :=
  (monthNames.filterMap
    (fun kn => (matchKeyword kn.1 cs).map (fun rest => (kn.2, rest)))).head?

def isWsChar (c : Char) : Bool :=
  c == ' ' || c == '\t' || c == '\n' || c == '\x0d' || c == '\x0c' || c == '\x0b'

def skipWs1 : List Char → Option (List Char)
  | [] => none
  | c :: rest => if isWsChar c then some (rest.dropWhile isWsChar) else none

def matchDay : List Char → Option (Nat × List Char)
  | [] => none
  | [c1] => if '1' ≤ c1 ∧ c1 ≤ '9' then some (c1.toNat - 48, []) else none
  | c1 :: c2 :: rest =>
    if c1 = '3' ∧ (c2 = '0' ∨ c2 = '1') then some (30 + (c2.toNat - 48), rest)
    else if (c1 = '1' ∨ c1 = '2') ∧ c2.isDigit then
      some ((c1.toNat - 48) * 10 + (c2.toNat - 48), rest)
    else if c1 = '0' ∧ ('1' ≤ c2 ∧ c2 ≤ '9') then some (c2.toNat - 48, rest)
    else if '1' ≤ c1 ∧ c1 ≤ '9' then some (c1.toNat - 48, c2 :: rest)
    else if c1 = ' ' ∧ ('1' ≤ c2 ∧ c2 ≤ '9') then some (c2.toNat - 48, rest)
    else none

def matchYear4 : List Char → Option (Nat × List Char)
  | a :: b :: c :: d :: rest =>
    if a.isDigit ∧ b.isDigit ∧ c.isDigit ∧ d.isDigit then
      some ((((a.toNat - 48) * 10 + (b.toNat - 48)) * 10 + (c.toNat - 48)) * 10
              + (d.toNat - 48), rest)
    else none
  | _ => none

def isLeapYear (y : Nat) : Bool :=
  (y % 4 == 0 && y % 100 != 0) || y % 400 == 0

def daysInMonth (y m : Nat) : Nat :=
  if m = 2 then (if isLeapYear y then 29 else 28)
  else if m = 4 ∨ m = 6 ∨ m = 9 ∨ m = 11 then 30
  else 31

/-- Modelled behaviour of datetime.strptime(s, "%B %d, %Y"): the parsed
    year, month and day on success, none where the Python call raises
    ValueError. -/
def strptime_long_date (s : String) : Option (Nat × Nat × Nat) :=
  match matchMonth s.data with
  | none => none
  | some (m, r1) =>
    match skipWs1 r1 with
    | none => none
    | some r2 =>
      match matchDay r2 with
      | none => none
      | some (d, r3) =>
        match r3 with
        | ',' :: r4 =>
          (match skipWs1 r4 with
           | none => none
           | some r5 =>
             match matchYear4 r5 with
             | some (y, []) =>
               if 1 ≤ y ∧ d ≤ daysInMonth y m then some (y, m, d) else none
             | _ => none)
        | _ => none

def pad2 (n : Nat) : String :=
  if n < 10 then "0" ++ toString n else toString n

def pad4 (n : Nat) : String :=
  if n < 10 then "000" ++ toString n
  else if n < 100 then "00" ++ toString n
  else if n < 1000 then "0" ++ toString n
  else toString n

/-- Result of datetime(y, m, d).isoformat() for a midnight timestamp. -/
def isoformat_midnight (y m d : Nat) : String :=
  pad4 y ++ "-" ++ pad2 m ++ "-" ++ pad2 d ++ "T00:00:00"

/-! Page extraction, from FederalReserve_RSS.fetch_fed_speech. -/

inductive NetError where
  | connectionError (msg : String)
deriving DecidableEq

/-- Exceptions that can escape fetch_fed_speech: the AttributeError raised
    by get_text on the None result of soup.find when the h3 heading is
    missing, the ValueError raised by strptime on an unparseable date text,
    and a requests transport exception propagating out of requests.get. -/
inductive PyError where
  | attributeError
  | valueError
  | requestsError (e : NetError)
deriving DecidableEq

/-- Observable result of the BeautifulSoup structural queries made by
    fetch_fed_speech on one fetched page: each field holds the
    get_text(strip=True) text of the designated element when the element is
    present, and content_div holds the stripped text of every p element of
    the main content container in document order. -/
structure Page where
  h3 : Option String
  speaker_tag : Option String
  date_tag : Option String
  location_tag : Option String
  content_div : Option (List String)
deriving DecidableEq

/-- HTTP response as requests.get returns it: a status code and a body;
    fetch_fed_speech never inspects the status code. -/
structure HttpPage where
  status_code : Nat
  page : Page
deriving DecidableEq

/-- Dictionary returned by fetch_fed_speech. -/
structure Speech where
  title : String
  speaker : Option String
  date : Option String
  location : Option String
  url : String
  content : String
deriving DecidableEq

def joinParas (od : Option (List String)) : String :=
  String.intercalate "\n" (od.getD [])

/-- Embedding of FederalReserve_RSS.fetch_fed_speech. The transport
    argument is the outcome of requests.get(url): a raised transport
    exception propagates; otherwise the body is parsed and the designated
    fields are extracted, the title query raising AttributeError when no h3
    element exists.  The date conversion is guarded by the truthiness of
    date_raw: it runs only when the stripped timestamp text is present and
    non-empty (the empty string is falsy, yielding date None), and raises
    ValueError when that non-empty text does not parse. -/
def fetch_fed_speech (url : String) (transport : Except NetError HttpPage) :
    Except PyError Speech :=
  match transport with
  | .error e => .error (.requestsError e)
  | .ok response =>
    let soup := response.page
    match soup.h3 with
    | none => .error .attributeError
    | some title =>
      let speaker := soup.speaker_tag
      let date_raw := soup.date_tag
      match date_raw with
      | some d =>
        if d = "" then
          .ok { title := title, speaker := speaker, date := none,
                location := soup.location_tag, url := url,
                content := joinParas soup.content_div }
        else
          (match strptime_long_date d with
           | none => .error .valueError
           | some ymd =>
             .ok { title := title, speaker := speaker,
                   date := some (isoformat_midnight ymd.1 ymd.2.1 ymd.2.2),
                   location := soup.location_tag, url := url,
                   content := joinParas soup.content_div })
      | none =>
        .ok { title := title, speaker := speaker, date := none,
              location := soup.location_tag, url := url,
              content := joinParas soup.content_div }

/-! Summarizer client, from clients.py XAIClient.get_response. -/

structure Message where
  role : String
  content : String
deriving DecidableEq

/-- Embedding of XAIClient.get_response. The transport argument is the
    outcome of the chat.completions.create call: an API or transport
    exception, or the optional message content of the first choice. Every
    exception is caught, printed and swallowed, the method then returning
    None. -/
def get_response (model : String) (messages : List Message)
    (transport : Except String (Option String)) : Option String :=
  match transport with
  | .ok content => content
  | .error _ => none

/-! Archive writer, from FederalReserve_RSS.append_speech_to_json.

    The filesystem under the base directory is modelled as a map from
    speaker slug to the parsed content of the slug's JSON file; the textual
    serialization produced by json.dump and read back by json.load is
    modelled and verified separately below. -/

/-- One entry of the speeches list of an archive file, with the keys the
    cleaned_speech dict of append_speech_to_json stores, in that order. -/
structure CleanedSpeech where
  title : String
  date : Option String
  location : Option String
  url : Option String
  summary : Option String
  content : String
deriving DecidableEq

/-- Parsed content of one speaker's JSON archive file. -/
structure Archive where
  speaker : String
  speeches : List CleanedSpeech
deriving DecidableEq

def FS : Type := String → Option Archive

def fsEmpty : FS := fun _ => none

inductive AppendOutcome where
  | appended
  | skippedDuplicate
deriving DecidableEq

/-- Observable side effects of one append_speech_to_json call, in order:
    the summarization API request and the archive file write. -/
inductive Effect where
  | summarizeCall (model : String) (messages : List Message)
  | fileWrite (path : String)
deriving DecidableEq

/-- ASCII lowering of a string, modelling str.lower on the ASCII range the
    speaker names of this feed use. -/
def str_lower (s : String) : String :=
  String.mk (s.data.map Char.toLower)

/-- Speaker slug: speech.speaker lowered with spaces replaced by
    underscores; the single-character str.replace is modelled as a
    character map. -/
def slugify (s : String) : String :=
  String.mk ((str_lower s).data.map (fun c => if c = ' ' then '_' else c))

def systemPromptFor (speaker : String) : String :=
  "Please summarize the following speech/testimony given by Federal Reserve Board "
    ++ speaker

/-- The two-message exchange built inside append_speech_to_json. -/
def messagesFor (speaker content : String) : List Message :=
  [{ role := "system", content := systemPromptFor speaker },
   { role := "user", content := content }]

/-- A summarizer is what xclient.get_response is to append_speech_to_json:
    a function of the model identifier and the messages, returning the
    optional summary text. -/
def Summarizer : Type := String → List Message → Option String

/-- The cleaned_speech dict built from a fetched speech and the summarizer
    result. -/
def cleanedOf (speech : Speech) (summary : Option String) : CleanedSpeech :=
  { title := speech.title, date := speech.date, location := speech.location,
    url := some speech.url, summary := summary, content := speech.content }

/-- Embedding of FederalReserve_RSS.append_speech_to_json. Returns none
    where the Python code raises: speech["speaker"] is None, so that
    .lower() raises AttributeError while deriving the slug. Otherwise
    returns the filesystem after the call, the outcome (the early return on
    a duplicate URL against the appended-and-saved path) and the list of
    side effects performed. -/
def append_speech_to_json (summarizer : Summarizer) (speech : Speech)
    (fs : FS) (base_dir : String) :
    Option (FS × AppendOutcome × List Effect) :=
  match speech.speaker with
  | none => none
  | some sp =>
    let speaker_slug := slugify sp
    let json_path := base_dir ++ "/" ++ speaker_slug ++ ".json"
    let data : Archive :=
      (fs speaker_slug).getD { speaker := sp, speeches := [] }
    let existing_urls := data.speeches.map (fun e => e.url)
    if some speech.url ∈ existing_urls then
      some (fs, .skippedDuplicate, [])
    else
      let messages := messagesFor sp speech.content
      let speech_summary := summarizer "grok-3-mini" messages
      let cleaned_speech := cleanedOf speech speech_summary
      let data2 : Archive :=
        { data with speeches := data.speeches ++ [cleaned_speech] }
      let fs2 : FS := fun p => if p = speaker_slug then some data2 else fs p
      some (fs2, .appended,
            [.summarizeCall "grok-3-mini" messages, .fileWrite json_path])

/-! Orchestrator, from main.py. The loop body fetches one entry's page and
    appends it; main wraps no exception handler around the body, so an
    exception raised for one entry propagates and ends the run. -/

/-- One feed entry together with the transport outcome the world supplies
    when its link is fetched. -/
structure EntryInput where
  link : String
  transport : Except NetError HttpPage

inductive RunError where
  | extraction (e : PyError)
  | archiving
deriving DecidableEq

/-- One iteration of the loop in main: fetch_fed_speech on the entry link,
    then append_speech_to_json on the resulting speech dict. Either
    exception propagates as an error. -/
def process_entry (summarizer : Summarizer) (base_dir : String)
    (e : EntryInput) (fs : FS) : Except RunError FS :=
  match fetch_fed_speech e.link e.transport with
  | .error err => .error (.extraction err)
  | .ok speech_data =>
    match append_speech_to_json summarizer speech_data fs base_dir with
    | none => .error .archiving
    | some (fs2, _, _) => .ok fs2

/-- The for-loop of main over the feed entries: strictly sequential, no
    per-entry exception handling, an error ends the run at that entry. -/
def run_entries (summarizer : Summarizer) (base_dir : String) :
    List EntryInput → FS → Except RunError FS
  | [], fs => .ok fs
  | e :: rest, fs =>
    match process_entry summarizer base_dir e fs with
    | .error err => .error err
    | .ok fs2 => run_entries summarizer base_dir rest fs2

/-! Textual persistence, modelling json.dump(data, f, indent=2,
    ensure_ascii=False) over the archive dict and the json.load that
    append_speech_to_json uses to read the file back.  The dumper below
    reproduces the exact text Python emits for this schema; the loader is a
    decoder for that format (json.load accepts a superset of it). -/

def hexDigitLower (n : Nat) : Char :=
  if n < 10 then Char.ofNat (48 + n) else Char.ofNat (87 + n)

/-- Escaping of one character inside a JSON string as the Python encoder
    performs it with ensure_ascii=False: only the quote, the backslash and
    the control characters below \x20 are escaped, every other character,
    non-ASCII included, is emitted literally. -/
def escChar (c : Char) : List Char :=
  if c = '"' then ['\\', '"']
  else if c = '\\' then ['\\', '\\']
  else if c = '\x08' then ['\\', 'b']
  else if c = '\x0c' then ['\\', 'f']
  else if c = '\n' then ['\\', 'n']
  else if c = '\x0d' then ['\\', 'r']
  else if c = '\t' then ['\\', 't']
  else if c.toNat < 32 then
    ['\\', 'u', '0', '0', hexDigitLower (c.toNat / 16), hexDigitLower (c.toNat % 16)]
  else [c]

def escString (cs : List Char) : List Char :=
  (cs.map escChar).flatten

/-- A JSON string literal: quote, escaped body, quote. -/
def jstrL (s : String) : List Char :=
  '"' :: (escString s.data ++ ['"'])

/-- A JSON value for an optional string field: null when absent. -/
def joptL : Option String → List Char
  | none => "null".data
  | some s => jstrL s

def kSpTitle : String := "\x7b\n      \"title\": "
def kSpDate : String := ",\n      \"date\": "
def kSpLocation : String := ",\n      \"location\": "
def kSpUrl : String := ",\n      \"url\": "
def kSpSummary : String := ",\n      \"summary\": "
def kSpContent : String := ",\n      \"content\": "
def kSpClose : String := "\n    \x7d"
def kArrEmpty : String := "[]"
def kArrOpen : String := "[\n    "
def kArrSep : String := ",\n    "
def kArrClose : String := "\n  ]"
def kArchOpen : String := "\x7b\n  \"speaker\": "
def kArchSpeeches : String := ",\n  \"speeches\": "
def kArchClose : String := "\n\x7d"

/-- Serialization of one speeches entry as Python renders the
    cleaned_speech dict at nesting depth two with indent=2. -/
def dumpSpeechL (s : CleanedSpeech) : List Char :=
  kSpTitle.data ++ jstrL s.title ++ kSpDate.data ++ joptL s.date ++
  kSpLocation.data ++ joptL s.location ++ kSpUrl.data ++ joptL s.url ++
  kSpSummary.data ++ joptL s.summary ++ kSpContent.data ++ jstrL s.content ++
  kSpClose.data

/-- Tail of the speeches array rendering: separator plus entry for each
    remaining element, then the closing bracket line. -/
def dumpMoreL : List CleanedSpeech → List Char
  | [] => kArrClose.data
  | s :: rest => kArrSep.data ++ dumpSpeechL s ++ dumpMoreL rest

def dumpSpeechesL : List CleanedSpeech → List Char
  | [] => kArrEmpty.data
  | s :: rest => kArrOpen.data ++ dumpSpeechL s ++ dumpMoreL rest

def dumpArchiveL (a : Archive) : List Char :=
  kArchOpen.data ++ jstrL a.speaker ++ kArchSpeeches.data ++
  dumpSpeechesL a.speeches ++ kArchClose.data

/-- Full text that json.dump(data, f, indent=2, ensure_ascii=False) writes
    for an archive dict. -/
def json_dump_archive (a : Archive) : String :=
  String.mk (dumpArchiveL a)

def hexVal (c : Char) : Option Nat :=
  if '0' ≤ c ∧ c ≤ '9' then some (c.toNat - 48)
  else if 'a' ≤ c ∧ c ≤ 'f' then some (c.toNat - 87)
  else if 'A' ≤ c ∧ c ≤ 'F' then some (c.toNat - 55)
  else none

def unescChar (c : Char) : Option Char :=
  if c = '"' then some '"'
  else if c = '\\' then some '\\'
  else if c = 'b' then some '\x08'
  else if c = 'f' then some '\x0c'
  else if c = 'n' then some '\n'
  else if c = 'r' then some '\x0d'
  else if c = 't' then some '\t'
  else none

/-- Decode the body of a JSON string literal up to its closing quote,
    undoing the escapes; returns the decoded characters and the input that
    follows the closing quote. -/
def parseStringBody : List Char → Option (List Char × List Char)
  | [] => none
  | c :: cs =>
    if c = '"' then some ([], cs)
    else if c = '\\' then
      match cs with
      | [] => none
      | 'u' :: h1 :: h2 :: h3 :: h4 :: cs2 =>
        (match hexVal h1, hexVal h2, hexVal h3, hexVal h4 with
         | some a, some b, some c3, some d =>
           (parseStringBody cs2).map
             (fun pr => (Char.ofNat (((a * 16 + b) * 16 + c3) * 16 + d) :: pr.1, pr.2))
         | _, _, _, _ => none)
      | e :: cs2 =>
        (match unescChar e with
         | some c2 => (parseStringBody cs2).map (fun pr => (c2 :: pr.1, pr.2))
         | none => none)
    else (parseStringBody cs).map (fun pr => (c :: pr.1, pr.2))

/-- Consume an expected literal prefix. -/
def dropLit : List Char → List Char → Option (List Char)
  | [], cs => some cs
  | _ :: _, [] => none
  | l :: ls, c :: cs => if c = l then dropLit ls cs else none

def kQuote : List Char := ['"']

def parseJString (cs : List Char) : Option (String × List Char) :=
  (dropLit kQuote cs).bind fun c1 =>
  (parseStringBody c1).map fun pr => (String.mk pr.1, pr.2)

def kNull : List Char := "null".data

def parseJOpt (cs : List Char) : Option (Option String × List Char) :=
  match dropLit kNull cs with
  | some r => some (none, r)
  | none => (parseJString cs).map fun pr => (some pr.1, pr.2)

def parseSpeechObj (cs : List Char) : Option (CleanedSpeech × List Char) :=
  (dropLit kSpTitle.data cs).bind fun c1 =>
  (parseJString c1).bind fun pt =>
  (dropLit kSpDate.data pt.2).bind fun c2 =>
  (parseJOpt c2).bind fun pd =>
  (dropLit kSpLocation.data pd.2).bind fun c3 =>
  (parseJOpt c3).bind fun pl =>
  (dropLit kSpUrl.data pl.2).bind fun c4 =>
  (parseJOpt c4).bind fun pu =>
  (dropLit kSpSummary.data pu.2).bind fun c5 =>
  (parseJOpt c5).bind fun ps =>
  (dropLit kSpContent.data ps.2).bind fun c6 =>
  (parseJString c6).bind fun pc =>
  (dropLit kSpClose.data pc.2).map fun c7 =>
  ({ title := pt.1, date := pd.1, location := pl.1, url := pu.1,
     summary := ps.1, content := pc.1 }, c7)

def parseMoreSpeeches : Nat → List Char → Option (List CleanedSpeech × List Char)
  | 0, _ => none
  | fuel + 1, cs =>
    match dropLit kArrClose.data cs with
    | some r => some ([], r)
    | none =>
      (dropLit kArrSep.data cs).bind fun c1 =>
      (parseSpeechObj c1).bind fun pr =>
      (parseMoreSpeeches fuel pr.2).map fun pr2 => (pr.1 :: pr2.1, pr2.2)

def parseSpeeches (fuel : Nat) (cs : List Char) :
    Option (List CleanedSpeech × List Char) :=
  match dropLit kArrEmpty.data cs with
  | some r => some ([], r)
  | none =>
    (dropLit kArrOpen.data cs).bind fun c1 =>
    (parseSpeechObj c1).bind fun pr =>
    (parseMoreSpeeches fuel pr.2).bind fun pr2 => some (pr.1 :: pr2.1, pr2.2)

def parseArchiveL (cs : List Char) : Option Archive :=
  (dropLit kArchOpen.data cs).bind fun c1 =>
  (parseJString c1).bind fun psp =>
  (dropLit kArchSpeeches.data psp.2).bind fun c2 =>
  (parseSpeeches (c2.length + 1) c2).bind fun pss =>
  (dropLit kArchClose.data pss.2).bind fun c3 =>
  match c3 with
  | [] => some { speaker := psp.1, speeches := pss.1 }
  | _ :: _ => none

/-- Reload of a persisted archive file. -/
def json_load_archive (s : String) : Option Archive :=
  parseArchiveL s.data
theorem append_eq_empty_left {a b : String} (h : a ++ b = "") : a = "" := by
  have hd := congrArg String.data h
  rw [String.data_append] at hd
  have : a.data = [] := (List.append_eq_nil.mp hd).1
  exact String.ext this

theorem encodePair_site (s : String) :
    encodePair ("Site", s) = "Site=" ++ quotePlus s := rfl

theorem encodePair_ct (s : String) :
    encodePair ("ContentType", s) = "ContentType=" ++ quotePlus s := rfl

theorem encodePair_max (s : String) :
    encodePair ("Max", s) = "Max=" ++ quotePlus s := rfl

/-- C7: for every FeedSource, the resolved URL includes exactly the present
    optional parameters (site, content-type, max-results), URL-encoded and
    appended to the base URL in the fixed order Site, ContentType, Max;
    absent parameters are omitted; when all three are absent the URL is the
    bare base URL; and the result depends only on the field values, not on
    any declaration order. -/
theorem feed_url_resolution :
    (∀ f : Feed, f.site = none → f.content_type = none → f.max = none →
       Feed.url f = f.base_url) ∧
    (∀ f : Feed, f.site ≠ none ∨ f.content_type ≠ none ∨ f.max ≠ none →
       Feed.url f = f.base_url ++ "?" ++ joinAmp
         ((f.site.toList.map (fun s => "Site=" ++ quotePlus s)) ++
          (f.content_type.toList.map (fun ct => "ContentType=" ++ quotePlus ct)) ++
          (f.max.toList.map (fun m => "Max=" ++ quotePlus (toString m))))) ∧
    (∀ f g : Feed, f.base_url = g.base_url → f.site = g.site →
       f.content_type = g.content_type → f.max = g.max →
       Feed.url f = Feed.url g) := by
  refine ⟨?_, ?_, ?_⟩
  · intro f h1 h2 h3
    simp [Feed.url, urlencode, Feed.params, h1, h2, h3, joinAmp]
  · intro f h
    obtain ⟨n, b, d, ct, st, mx⟩ := f
    cases st <;> cases ct <;> cases mx <;>
      simp_all [Feed.url, urlencode, Feed.params, joinAmp,
                encodePair_site, encodePair_ct, encodePair_max] <;>
      (intro he; exfalso;
       first
       | exact absurd (append_eq_empty_left he) (by decide)
       | exact absurd (append_eq_empty_left (append_eq_empty_left he)) (by decide)
       | exact absurd (append_eq_empty_left (append_eq_empty_left
           (append_eq_empty_left he))) (by decide))
  · intro f g h1 h2 h3 h4
    simp [Feed.url, Feed.params, h1, h2, h3, h4]
def feedAllAbsent : Feed :=
  { name := "All Speeches and Testimony",
    base_url := "https://www.federalreserve.gov/feeds/speeches_and_testimony.xml",
    description := "All speeches and testimony by members of the Federal Reserve Board.",
    content_type := none, site := none, max := none }

def feedAllPresent : Feed :=
  { name := "n", base_url := "http://x", description := "",
    content_type := some "c t", site := some "s/1", max := some 25 }

theorem feed_url_resolution_witness :
    Feed.url feedAllAbsent
        = "https://www.federalreserve.gov/feeds/speeches_and_testimony.xml" ∧
    Feed.url feedAllPresent = "http://x?Site=s%2F1&ContentType=c+t&Max=25" :=
  ⟨feed_url_resolution.1 feedAllAbsent rfl rfl rfl,
   (feed_url_resolution.2.1 feedAllPresent (by simp [feedAllPresent])).trans (by decide)⟩

/-- C8 amended: a network-level failure of the GET raises and is fatal for
    the entry, but the HTTP status of a completed response is never
    inspected: extraction proceeds on the body identically for any status
    code, so a non-success transport result does not produce a FetchError. -/
theorem fetch_transport_amended :
    (∀ url e, fetch_fed_speech url (.error e) = .error (.requestsError e)) ∧
    (∀ url c1 c2 p,
       fetch_fed_speech url (.ok { status_code := c1, page := p }) =
       fetch_fed_speech url (.ok { status_code := c2, page := p })) := by
  exact ⟨fun _ _ => rfl, fun _ _ _ _ => rfl⟩

def pageExample : Page :=
  { h3 := some "Welcoming Remarks", speaker_tag := some "Governor Bowman",
    date_tag := none, location_tag := some "Washington, D.C.",
    content_div := some ["Para one.", "Para two."] }

/-- C8 counterexample: a fetch that completes with HTTP status 404 does not
    fail with a FetchError; the error page body is parsed and a full
    SpeechRecord is returned. -/
theorem fetch_non_success_returns_record :
    fetch_fed_speech "https://example.org/speech"
      (.ok { status_code := 404, page := pageExample }) =
    .ok { title := "Welcoming Remarks", speaker := some "Governor Bowman",
          date := none, location := some "Washington, D.C.",
          url := "https://example.org/speech",
          content := "Para one.\nPara two." } := rfl

/-- C3 amended: extraction degrades a missing speaker, timestamp, location
    or content-container element to an absent field (content to the empty
    string) without raising, but a missing title heading raises an
    AttributeError that is fatal for the entry, as is network failure. -/
theorem extract_degradation_amended :
    (∀ url p t, p.h3 = some t → p.date_tag = none →
       fetch_fed_speech url (.ok { status_code := 200, page := p }) =
         .ok { title := t, speaker := p.speaker_tag, date := none,
               location := p.location_tag, url := url,
               content := joinParas p.content_div }) ∧
    (∀ url p t, p.h3 = some t → p.date_tag = none → p.content_div = none →
       fetch_fed_speech url (.ok { status_code := 200, page := p }) =
         .ok { title := t, speaker := p.speaker_tag, date := none,
               location := p.location_tag, url := url, content := "" }) ∧
    (∀ url p, p.h3 = none →
       fetch_fed_speech url (.ok { status_code := 200, page := p }) =
         .error .attributeError) := by
  refine ⟨?_, ?_, ?_⟩
  · intro url p t h1 h2
    simp [fetch_fed_speech, h1, h2]
  · intro url p t h1 h2 h3
    simp [fetch_fed_speech, h1, h2, h3, joinParas, String.intercalate]
  · intro url p h1
    simp [fetch_fed_speech, h1]

def pageNoTitle : Page :=
  { h3 := none, speaker_tag := some "Governor Bowman",
    date_tag := some "January 5, 2024", location_tag := some "Washington, D.C.",
    content_div := some ["Para one."] }

/-- C3 counterexample: on a page whose designated title heading is missing
    while every other element is present, extraction raises an
    AttributeError instead of returning a record with the field absent. -/
theorem missing_title_heading_raises :
    fetch_fed_speech "https://example.org/speech"
      (.ok { status_code := 200, page := pageNoTitle }) =
    .error .attributeError := rfl

theorem extract_degradation_amended_witness :
    fetch_fed_speech "https://example.org/speech"
      (.ok { status_code := 200,
             page := { h3 := some "Remarks", speaker_tag := none,
                       date_tag := none, location_tag := none,
                       content_div := none } }) =
    .ok { title := "Remarks", speaker := none, date := none,
          location := none, url := "https://example.org/speech",
          content := "" } :=
  extract_degradation_amended.2.1 "https://example.org/speech" _ "Remarks" rfl rfl rfl

/-- C2 amended: a timestamp element whose text is a parseable long-form
    month/day/year date yields the ISO-8601 timestamp; a missing timestamp
    element, or one whose stripped text is empty (falsy for the truthiness
    guard), yields an absent date; but a present timestamp whose non-empty
    text fails to parse raises a ValueError that aborts extraction of the
    page, rather than yielding an absent date. -/
theorem date_parsing_amended :
    (∀ url p t, p.h3 = some t → p.date_tag = some "January 5, 2024" →
       ∃ sp, fetch_fed_speech url (.ok { status_code := 200, page := p }) = .ok sp ∧
         sp.date = some "2024-01-05T00:00:00") ∧
    (∀ url p t, p.h3 = some t → (p.date_tag = none ∨ p.date_tag = some "") →
       ∃ sp, fetch_fed_speech url (.ok { status_code := 200, page := p }) = .ok sp ∧
         sp.date = none) ∧
    (∀ url p t d, p.h3 = some t → p.date_tag = some d → d ≠ "" →
       strptime_long_date d = none →
       fetch_fed_speech url (.ok { status_code := 200, page := p }) =
         .error .valueError) := by
  refine ⟨?_, ?_, ?_⟩
  · intro url p t h1 h2
    have hs : strptime_long_date "January 5, 2024" = some (2024, 1, 5) := by decide
    have hiso : isoformat_midnight 2024 1 5 = "2024-01-05T00:00:00" := by decide
    have hne : ¬("January 5, 2024" : String) = "" := by decide
    refine ⟨{ title := t, speaker := p.speaker_tag,
              date := some "2024-01-05T00:00:00", location := p.location_tag,
              url := url, content := joinParas p.content_div }, ?_, rfl⟩
    simp [fetch_fed_speech, h1, h2, hne, hs, hiso]
  · intro url p t h1 h2
    refine ⟨{ title := t, speaker := p.speaker_tag, date := none,
              location := p.location_tag, url := url,
              content := joinParas p.content_div }, ?_, rfl⟩
    cases h2 with
    | inl h2 => simp [fetch_fed_speech, h1, h2]
    | inr h2 => simp [fetch_fed_speech, h1, h2]
  · intro url p t d h1 h2 hne h3
    simp [fetch_fed_speech, h1, h2, hne, h3]

def pageBadDate : Page :=
  { h3 := some "Remarks", speaker_tag := some "Governor Bowman",
    date_tag := some "circa 2024", location_tag := some "Washington, D.C.",
    content_div := some ["Para one."] }

/-- C2 counterexample: on a page whose timestamp element text does not
    parse in the long-form format, extraction raises a ValueError instead
    of returning the record with date absent. -/
theorem unparseable_date_raises :
    fetch_fed_speech "https://example.org/speech"
      (.ok { status_code := 200, page := pageBadDate }) =
    .error .valueError := rfl

def pageGoodDate : Page :=
  { h3 := some "Remarks", speaker_tag := some "Governor Bowman",
    date_tag := some "January 5, 2024", location_tag := some "Washington, D.C.",
    content_div := some ["Para one."] }

theorem date_parsing_amended_witness :
    ∃ sp, fetch_fed_speech "https://example.org/speech"
      (.ok { status_code := 200, page := pageGoodDate }) = .ok sp ∧
      sp.date = some "2024-01-05T00:00:00" :=
  date_parsing_amended.1 "https://example.org/speech" pageGoodDate "Remarks" rfl rfl
def archPre : Archive :=
  { speaker := "Governor Bowman",
    speeches := [{ title := "T0", date := none, location := none,
                   url := some "https://good", summary := none,
                   content := "c0" }] }

def fsPre : FS := fun s => if s = "governor_bowman" then some archPre else none

def speechW : Speech :=
  { title := "T0", speaker := some "Governor Bowman", date := none,
    location := none, url := "https://good", content := "c0" }
def sumNone : Summarizer := fun _ _ => none

def sumConst : Summarizer := fun _ _ => some "a summary"

/-- C1: appending a record whose url is already in the archive of its
    speaker is skipped: after any successful append of a speech, a second
    append of the same speech returns the skipped-duplicate outcome,
    performs no side effect (no summarization request, no file write) and
    leaves the filesystem, hence the archive speech count, unchanged. -/
theorem append_idempotent (summ1 summ2 : Summarizer) (speech : Speech)
    (base_dir : String) (fs fs1 : FS) (out : AppendOutcome) (effs : List Effect)
    (h : append_speech_to_json summ1 speech fs base_dir = some (fs1, out, effs)) :
    append_speech_to_json summ2 speech fs1 base_dir
      = some (fs1, .skippedDuplicate, []) := by
  cases hsp : speech.speaker with
  | none => simp [append_speech_to_json, hsp] at h
  | some sp =>
    simp only [append_speech_to_json, hsp] at h ⊢
    by_cases hmem : some speech.url ∈
        ((fs (slugify sp)).getD { speaker := sp, speeches := [] }).speeches.map
          (fun e => e.url)
    · rw [if_pos hmem] at h
      simp only [Option.some.injEq, Prod.mk.injEq] at h
      obtain ⟨rfl, -, -⟩ := h
      rw [if_pos hmem]
    · rw [if_neg hmem] at h
      simp only [Option.some.injEq, Prod.mk.injEq] at h
      obtain ⟨hfs1, -, -⟩ := h
      subst hfs1
      rw [if_pos]
      simp [cleanedOf]

theorem append_idempotent_witness :
    append_speech_to_json sumNone speechW fsPre "fed_speeches_json"
      = some (fsPre, .skippedDuplicate, []) :=
  append_idempotent sumNone sumNone speechW "fed_speeches_json" fsPre fsPre
    .skippedDuplicate [] rfl
/-- C10: for a record whose url is already present in the archive of its
    speaker, append returns before the summarizer is invoked and before the
    file is opened for writing: the call performs no side effect at all and
    leaves the filesystem untouched; and whenever a record is appended, the
    summarization request is among the effects of the append call itself,
    followed by the file write. -/
theorem duplicate_append_frame :
    (∀ (summ : Summarizer) (speech : Speech) (base_dir sp : String) (fs : FS),
       speech.speaker = some sp →
       some speech.url ∈
         ((fs (slugify sp)).getD { speaker := sp, speeches := [] }).speeches.map
           (fun e => e.url) →
       append_speech_to_json summ speech fs base_dir
         = some (fs, .skippedDuplicate, [])) ∧
    (∀ (summ : Summarizer) (speech : Speech) (base_dir : String)
       (fs fs1 : FS) (effs : List Effect),
       append_speech_to_json summ speech fs base_dir = some (fs1, .appended, effs) →
       ∃ sp, speech.speaker = some sp ∧
         effs = [.summarizeCall "grok-3-mini" (messagesFor sp speech.content),
                 .fileWrite (base_dir ++ "/" ++ slugify sp ++ ".json")]) := by
  constructor
  · intro summ speech base_dir sp fs hsp hmem
    simp only [append_speech_to_json, hsp]
    rw [if_pos hmem]
  · intro summ speech base_dir fs fs1 effs h
    cases hsp : speech.speaker with
    | none => simp [append_speech_to_json, hsp] at h
    | some sp =>
      simp only [append_speech_to_json, hsp] at h
      by_cases hmem : some speech.url ∈
          ((fs (slugify sp)).getD { speaker := sp, speeches := [] }).speeches.map
            (fun e => e.url)
      · rw [if_pos hmem] at h
        simp at h
      · rw [if_neg hmem] at h
        simp only [Option.some.injEq, Prod.mk.injEq] at h
        exact ⟨sp, rfl, h.2.2.symm⟩

theorem duplicate_append_frame_witness :
    append_speech_to_json sumConst speechW fsPre "fed_speeches_json"
      = some (fsPre, .skippedDuplicate, []) :=
  duplicate_append_frame.1 sumConst speechW "fed_speeches_json"
    "Governor Bowman" fsPre rfl (by decide)

def archiveNoDupUrls (a : Archive) : Prop :=
  (a.speeches.map (fun e => e.url)).Nodup

def fsNoDupUrls (fs : FS) : Prop :=
  ∀ slug a, fs slug = some a → archiveNoDupUrls a

/-- C9: a fresh base directory trivially satisfies, and every append
    preserves, the invariant that no two entries of the same archive share
    a url: the duplicate guard skips a url already present, and a new url
    is appended to a list it does not occur in. -/
theorem append_preserves_url_uniqueness :
    fsNoDupUrls fsEmpty ∧
    ∀ (summ : Summarizer) (speech : Speech) (base_dir : String) (fs fs1 : FS)
      (out : AppendOutcome) (effs : List Effect),
      fsNoDupUrls fs →
      append_speech_to_json summ speech fs base_dir = some (fs1, out, effs) →
      fsNoDupUrls fs1 := by
  constructor
  · intro slug a h
    exact Option.noConfusion h
  · intro summ speech base_dir fs fs1 out effs hinv h
    cases hsp : speech.speaker with
    | none => simp [append_speech_to_json, hsp] at h
    | some sp =>
      simp only [append_speech_to_json, hsp] at h
      by_cases hmem : some speech.url ∈
          ((fs (slugify sp)).getD { speaker := sp, speeches := [] }).speeches.map
            (fun e => e.url)
      · rw [if_pos hmem] at h
        simp only [Option.some.injEq, Prod.mk.injEq] at h
        obtain ⟨rfl, -, -⟩ := h
        exact hinv
      · rw [if_neg hmem] at h
        simp only [Option.some.injEq, Prod.mk.injEq] at h
        obtain ⟨hfs1, -, -⟩ := h
        subst hfs1
        intro slug a ha
        beta_reduce at ha
        by_cases hslug : slug = slugify sp
        · rw [if_pos hslug] at ha
          simp only [Option.some.injEq] at ha
          subst ha
          unfold archiveNoDupUrls
          simp only [List.map_append, List.map_cons, List.map_nil]
          rw [← List.concat_eq_append]
          apply List.Nodup.concat
          · simpa [cleanedOf] using hmem
          · cases hfile : fs (slugify sp) with
            | none => simp [hfile]
            | some arch => simpa [hfile] using hinv _ _ hfile
        · rw [if_neg hslug] at ha
          exact hinv _ _ ha

def fsAfterW : FS := fun p =>
  if p = "governor_bowman"
  then some { speaker := "Governor Bowman", speeches := [cleanedOf speechW none] }
  else none

theorem append_preserves_url_uniqueness_witness : fsNoDupUrls fsAfterW :=
  append_preserves_url_uniqueness.2 sumNone speechW "fed_speeches_json"
    fsEmpty fsAfterW .appended
    [.summarizeCall "grok-3-mini" (messagesFor "Governor Bowman" "c0"),
     .fileWrite "fed_speeches_json/governor_bowman.json"]
    append_preserves_url_uniqueness.1 rfl
/-- C4: a transport or API failure of the summarization call does not
    raise outward: get_response swallows the exception and yields an
    absent result, and append still archives the record, whose stored
    summary field is absent; the record is not dropped. -/
theorem summarizer_failure_record_archived (apiErr : String) (speech : Speech)
    (base_dir sp : String) (fs : FS)
    (hsp : speech.speaker = some sp)
    (hnew : some speech.url ∉
      ((fs (slugify sp)).getD { speaker := sp, speeches := [] }).speeches.map
        (fun e => e.url)) :
    get_response "grok-3-mini" (messagesFor sp speech.content)
        (.error apiErr) = none ∧
    ∃ fs1, append_speech_to_json
        (fun m msgs => get_response m msgs (.error apiErr)) speech fs base_dir
        = some (fs1, .appended,
                [.summarizeCall "grok-3-mini" (messagesFor sp speech.content),
                 .fileWrite (base_dir ++ "/" ++ slugify sp ++ ".json")]) ∧
      (fs1 (slugify sp)).map (fun a => a.speeches.getLast?)
        = some (some (cleanedOf speech none)) := by
  refine ⟨rfl, ?_⟩
  refine ⟨fun p =>
    if p = slugify sp
    then some { speaker := ((fs (slugify sp)).getD { speaker := sp, speeches := [] }).speaker,
                speeches := ((fs (slugify sp)).getD { speaker := sp, speeches := [] }).speeches
                              ++ [cleanedOf speech none] }
    else fs p, ?_, ?_⟩
  · simp only [append_speech_to_json, hsp]
    rw [if_neg hnew]
    rfl
  · beta_reduce
    rw [if_pos rfl]
    simp [List.getLast?_concat]

def speechNew : Speech :=
  { title := "T1", speaker := some "Governor Bowman",
    date := some "2024-01-05T00:00:00", location := some "DC",
    url := "https://new", content := "body" }

theorem summarizer_failure_record_archived_witness :
    get_response "grok-3-mini" (messagesFor "Governor Bowman" "body")
        (.error "boom") = none ∧
    ∃ fs1, append_speech_to_json
        (fun m msgs => get_response m msgs (.error "boom")) speechNew fsEmpty
        "fed_speeches_json"
        = some (fs1, .appended,
                [.summarizeCall "grok-3-mini" (messagesFor "Governor Bowman" "body"),
                 .fileWrite ("fed_speeches_json" ++ "/" ++ slugify "Governor Bowman"
                               ++ ".json")]) ∧
      (fs1 (slugify "Governor Bowman")).map (fun a => a.speeches.getLast?)
        = some (some (cleanedOf speechNew none)) :=
  summarizer_failure_record_archived "boom" speechNew "fed_speeches_json"
    "Governor Bowman" fsEmpty rfl (by decide)

/-- C5 amended: the orchestrator has no per-entry error handling: a
    failure while processing one feed entry (extraction or archiving)
    propagates and aborts the entire run, leaving all later feed entries
    unprocessed. -/
theorem entry_failure_aborts (summ : Summarizer) (base_dir : String)
    (e : EntryInput) (rest : List EntryInput) (fs : FS) (err : RunError)
    (h : process_entry summ base_dir e fs = .error err) :
    run_entries summ base_dir (e :: rest) fs = .error err := by
  simp [run_entries, h]

def entryBad : EntryInput :=
  { link := "https://bad",
    transport := .ok { status_code := 200, page := pageNoTitle } }

def entryGood : EntryInput :=
  { link := "https://good",
    transport := .ok { status_code := 200, page := pageExample } }

theorem entry_failure_aborts_witness :
    run_entries sumNone "fed_speeches_json" [entryBad] fsPre
      = .error (.extraction .attributeError) :=
  entry_failure_aborts sumNone "fed_speeches_json" entryBad [] fsPre
    (.extraction .attributeError) rfl

/-- C5 counterexample: a run over two feed entries in which the first
    entry fails (its page lacks the title heading) aborts with that error
    and never processes the second entry, even though the second entry
    alone is processed successfully; the orchestrator does not continue to
    the next feed entry. -/
theorem per_entry_failure_aborts_run :
    run_entries sumNone "fed_speeches_json" [entryBad, entryGood] fsPre
      = .error (.extraction .attributeError) ∧
    run_entries sumNone "fed_speeches_json" [entryGood] fsPre = .ok fsPre := by
  exact ⟨rfl, rfl⟩
theorem dropLit_append (lit rest : List Char) :
    dropLit lit (lit ++ rest) = some rest := by
  induction lit with
  | nil => rfl
  | cons l ls ih => simp [dropLit, ih]

theorem hexVal_hexDigitLower (n : Nat) (h : n < 16) :
    hexVal (hexDigitLower n) = some n := by
  interval_cases n <;> decide

theorem parseStringBody_esc (cs rest : List Char) :
    parseStringBody (escString cs ++ '"' :: rest) = some (cs, rest) := by
  induction cs with
  | nil =>
    rw [show escString [] ++ '"' :: rest = '"' :: rest from by simp [escString]]
    rw [parseStringBody.eq_def]
    simp
  | cons c cs ih =>
    rw [show escString (c :: cs) = escChar c ++ escString cs from by
          simp [escString]]
    rw [List.append_assoc]
    by_cases h1 : c = '"'
    · subst h1
      rw [show escChar '"' = ['\\', '"'] from by decide]
      simp only [List.cons_append, List.nil_append]
      rw [parseStringBody.eq_def]
      simp [unescChar, ih]
    by_cases h2 : c = '\\'
    · subst h2
      rw [show escChar '\\' = ['\\', '\\'] from by decide]
      simp only [List.cons_append, List.nil_append]
      rw [parseStringBody.eq_def]
      simp [unescChar, ih]
    by_cases h3 : c = '\x08'
    · subst h3
      rw [show escChar '\x08' = ['\\', 'b'] from by decide]
      simp only [List.cons_append, List.nil_append]
      rw [parseStringBody.eq_def]
      simp [unescChar, ih]
    by_cases h4 : c = '\x0c'
    · subst h4
      rw [show escChar '\x0c' = ['\\', 'f'] from by decide]
      simp only [List.cons_append, List.nil_append]
      rw [parseStringBody.eq_def]
      simp [unescChar, ih]
    by_cases h5 : c = '\n'
    · subst h5
      rw [show escChar '\n' = ['\\', 'n'] from by decide]
      simp only [List.cons_append, List.nil_append]
      rw [parseStringBody.eq_def]
      simp [unescChar, ih]
    by_cases h6 : c = '\x0d'
    · subst h6
      rw [show escChar '\x0d' = ['\\', 'r'] from by decide]
      simp only [List.cons_append, List.nil_append]
      rw [parseStringBody.eq_def]
      simp [unescChar, ih]
    by_cases h7 : c = '\t'
    · subst h7
      rw [show escChar '\t' = ['\\', 't'] from by decide]
      simp only [List.cons_append, List.nil_append]
      rw [parseStringBody.eq_def]
      simp [unescChar, ih]
    by_cases hlt : c.toNat < 32
    · have h16a : c.toNat / 16 < 16 := by omega
      have h16b : c.toNat % 16 < 16 := by omega
      rw [show escChar c = ['\\', 'u', '0', '0', hexDigitLower (c.toNat / 16),
            hexDigitLower (c.toNat % 16)] from by
          simp [escChar, h1, h2, h3, h4, h5, h6, h7, hlt]]
      simp only [List.cons_append, List.nil_append]
      rw [parseStringBody.eq_def]
      have hv0 : hexVal '0' = some 0 := by decide
      simp only [hv0, hexVal_hexDigitLower _ h16a, hexVal_hexDigitLower _ h16b, ih,
                 Option.map_some]
      have hc : Char.ofNat (c.toNat / 16 * 16 + c.toNat % 16) = c := by
        rw [show c.toNat / 16 * 16 + c.toNat % 16 = c.toNat from by omega]
        exact Char.ofNat_toNat c
      simp [hc]
    · rw [show escChar c = [c] from by
          simp [escChar, h1, h2, h3, h4, h5, h6, h7, hlt]]
      simp only [List.cons_append, List.nil_append]
      rw [parseStringBody.eq_def]
      simp [h1, h2, ih]
theorem parseJString_jstr (s : String) (rest : List Char) :
    parseJString (jstrL s ++ rest) = some (s, rest) := by
  rw [show jstrL s ++ rest = '"' :: (escString s.data ++ '"' :: rest) from by
        simp [jstrL]]
  simp [parseJString, kQuote, dropLit, parseStringBody_esc]

theorem parseJOpt_jopt (o : Option String) (rest : List Char) :
    parseJOpt (joptL o ++ rest) = some (o, rest) := by
  cases o with
  | none =>
    rw [show joptL none = kNull from rfl]
    simp [parseJOpt, dropLit_append]
  | some s =>
    rw [show joptL (some s) = jstrL s from rfl]
    have hnull : dropLit kNull (jstrL s ++ rest) = none := rfl
    simp [parseJOpt, hnull, parseJString_jstr]

theorem parseSpeechObj_dump (sp : CleanedSpeech) (rest : List Char) :
    parseSpeechObj (dumpSpeechL sp ++ rest) = some (sp, rest) := by
  simp [parseSpeechObj, dumpSpeechL, List.append_assoc, dropLit_append,
        parseJString_jstr, parseJOpt_jopt]
theorem parseMoreSpeeches_dump (sps : List CleanedSpeech) :
    ∀ (fuel : Nat) (rest : List Char), sps.length < fuel →
    parseMoreSpeeches fuel (dumpMoreL sps ++ rest) = some (sps, rest) := by
  induction sps with
  | nil =>
    intro fuel rest hf
    cases fuel with
    | zero => omega
    | succ f =>
      rw [show dumpMoreL [] = kArrClose.data from rfl]
      rw [parseMoreSpeeches]
      simp [dropLit_append]
  | cons s sps ih =>
    intro fuel rest hf
    cases fuel with
    | zero => omega
    | succ f =>
      rw [show dumpMoreL (s :: sps) ++ rest
            = kArrSep.data ++ (dumpSpeechL s ++ (dumpMoreL sps ++ rest)) from by
          simp [dumpMoreL, List.append_assoc]]
      rw [parseMoreSpeeches]
      have hclose : ∀ X : List Char,
          dropLit kArrClose.data (kArrSep.data ++ X) = none := fun _ => rfl
      simp only [hclose, dropLit_append, parseSpeechObj_dump, Option.some_bind]
      have hlen : sps.length < f := by
        simpa using Nat.lt_of_succ_lt_succ hf
      simp [ih f rest hlen]

theorem parseSpeeches_dump (sps : List CleanedSpeech) (fuel : Nat)
    (rest : List Char) (hf : sps.length < fuel) :
    parseSpeeches fuel (dumpSpeechesL sps ++ rest) = some (sps, rest) := by
  cases sps with
  | nil =>
    rw [show dumpSpeechesL [] = kArrEmpty.data from rfl]
    simp [parseSpeeches, dropLit_append]
  | cons s sps =>
    rw [show dumpSpeechesL (s :: sps) ++ rest
          = kArrOpen.data ++ (dumpSpeechL s ++ (dumpMoreL sps ++ rest)) from by
        simp [dumpSpeechesL, List.append_assoc]]
    have hemp : ∀ X : List Char,
        dropLit kArrEmpty.data (kArrOpen.data ++ X) = none := fun _ => rfl
    have hlen : sps.length < fuel := by
      have := hf
      simp at this
      omega
    simp [parseSpeeches, hemp, dropLit_append, parseSpeechObj_dump,
          parseMoreSpeeches_dump sps fuel rest hlen]
theorem length_le_dumpMoreL (sps : List CleanedSpeech) :
    sps.length ≤ (dumpMoreL sps).length := by
  induction sps with
  | nil => simp [dumpMoreL]
  | cons s sps ih =>
    have hsep : kArrSep.data.length = 6 := rfl
    simp only [dumpMoreL, List.length_append, List.length_cons, hsep]
    omega

theorem length_le_dumpSpeechesL (sps : List CleanedSpeech) :
    sps.length ≤ (dumpSpeechesL sps).length := by
  cases sps with
  | nil => simp [dumpSpeechesL]
  | cons s sps =>
    have hopen : kArrOpen.data.length = 6 := rfl
    have := length_le_dumpMoreL sps
    simp only [dumpSpeechesL, List.length_append, List.length_cons, hopen]
    omega

theorem parseArchiveL_dump (a : Archive) :
    parseArchiveL (dumpArchiveL a) = some a := by
  rw [show dumpArchiveL a
        = kArchOpen.data ++ (jstrL a.speaker ++ (kArchSpeeches.data ++
            (dumpSpeechesL a.speeches ++ kArchClose.data))) from by
      simp [dumpArchiveL, List.append_assoc]]
  have hfuel : a.speeches.length
      < (dumpSpeechesL a.speeches ++ kArchClose.data).length + 1 := by
    have := length_le_dumpSpeechesL a.speeches
    simp only [List.length_append]
    omega
  have hdropc : dropLit kArchClose.data kArchClose.data = some [] := by
    simpa using dropLit_append kArchClose.data []
  simp only [parseArchiveL, dropLit_append, Option.some_bind, parseJString_jstr]
  rw [parseSpeeches_dump a.speeches _ kArchClose.data hfuel]
  simp [hdropc]
/-- C6: persisting an Archive with the modelled json.dump (indent=2,
    ensure_ascii=False, hence 2-space indentation and non-ASCII characters
    written literally) and reloading the text yields a structurally equal
    Archive: same speaker, same speech sequence and field values; and every
    character at or above \x20 other than the quote and the backslash, so
    in particular every non-ASCII character, is emitted unchanged by the
    string encoder. -/
theorem archive_persistence_roundtrip :
    (∀ a : Archive, json_load_archive (json_dump_archive a) = some a) ∧
    (∀ c : Char, ¬ c = '"' → ¬ c = '\\' → 32 ≤ c.toNat → escChar c = [c]) := by
  constructor
  · intro a
    have : (json_dump_archive a).data = dumpArchiveL a := rfl
    rw [json_load_archive, this]
    exact parseArchiveL_dump a
  · intro c h1 h2 hge
    have h3 : ¬ c = '\x08' := by rintro rfl; exact absurd hge (by decide)
    have h4 : ¬ c = '\x0c' := by rintro rfl; exact absurd hge (by decide)
    have h5 : ¬ c = '\n' := by rintro rfl; exact absurd hge (by decide)
    have h6 : ¬ c = '\x0d' := by rintro rfl; exact absurd hge (by decide)
    have h7 : ¬ c = '\t' := by rintro rfl; exact absurd hge (by decide)
    have hlt : ¬ c.toNat < 32 := by omega
    simp [escChar, h1, h2, h3, h4, h5, h6, h7, hlt]

def archW : Archive :=
  { speaker := "Göv \"Ä\" Bowman",
    speeches := [{ title := "Ökonomie\nheute", date := some "2024-01-05T00:00:00",
                   location := none, url := some "https://good",
                   summary := none, content := "l1\nl2 é" }] }

theorem archive_persistence_roundtrip_witness :
    json_load_archive (json_dump_archive archW) = some archW ∧
    escChar 'é' = ['é'] :=
  ⟨archive_persistence_roundtrip.1 archW,
   archive_persistence_roundtrip.2 'é' (by decide) (by decide) (by decide)⟩
